import Mathlib

/-!
Verification of the gemini-client worker subsystem
(`src/gemini-client/src/`): a shallow embedding of the credential
manager, the in-process retry wrapper, the request/response envelopes
and their decoding, the delay-requeue helper, and the per-message
dispatch loop, together with theorems settling the specification's
claims about them.

Conventions used throughout:
* Python wall-clock timestamps (`time.time()` floats and datetimes) are
  modelled as integers (ℤ); the code only orders timestamps and adds
  whole-second offsets to them, so this is faithful to every path we
  verify.  JSON numbers seen by the decoder are modelled as rationals.
* Python exceptions are modelled as explicit result values; an
  exception message is carried as a `String`.
* Network and broker I/O is modelled by an environment oracle that
  fixes the outcome of each external call (key availability, upstream
  call result, publish success), and by an explicit trace of the
  broker-visible effects the worker performs.
-/

set_option maxRecDepth 10000

namespace GeminiClient

/-! ## Credential manager
Embedding of `src/gemini-client/src/client/key_manager.py`. -/

/-- State tracking for a single API key (`KeyState`). -/
structure KeyState where
  key : String
  usage_count : Nat
  last_reset : ℤ
  cooldown_until : ℤ
  total_requests : Nat
  rate_limit_count : Nat
deriving DecidableEq, Inhabited

/-- `KeyState.is_available`: not in cooldown and under the per-minute quota. -/
def KeyState.is_available (s : KeyState) (max_per_minute : Nat) (current_time : ℤ) : Bool :=
  if current_time < s.cooldown_until then false
  else if max_per_minute ≤ s.usage_count then false
  else true

/-- `KeyState.reset_if_needed`: reset the usage counter once 60 seconds
have passed since the window start. -/
def KeyState.reset_if_needed (s : KeyState) (current_time : ℤ) : KeyState :=
  if (60 : ℤ) ≤ current_time - s.last_reset then
    { s with usage_count := 0, last_reset := current_time }
  else s

/-- `KeyState.increment_usage`. -/
def KeyState.increment_usage (s : KeyState) : KeyState :=
  { s with usage_count := s.usage_count + 1, total_requests := s.total_requests + 1 }

/-- `KeyState.mark_rate_limited`: set the cooldown deadline and bump the
lifetime rate-limit counter. -/
def KeyState.mark_rate_limited (s : KeyState) (cooldown_seconds : Nat) (current_time : ℤ) :
    KeyState :=
  { s with cooldown_until := current_time + (cooldown_seconds : ℤ),
           rate_limit_count := s.rate_limit_count + 1 }

/-- The `KeyManager` fields that persist across calls (the asyncio lock
serializes the methods, so each method is modelled as an atomic state
transition). -/
structure KeyManager where
  keys : List KeyState
  max_per_minute : Nat
  cooldown_seconds : Nat
  current_index : Nat
deriving DecidableEq

/-- `KeyManager.__init__` (the empty-pool `ValueError` is a
construction-time failure; theorems that need a non-empty pool assume
it explicitly). -/
def KeyManager.init (api_keys : List String) (max_per_minute cooldown_seconds : Nat)
    (t0 : ℤ) : KeyManager :=
  { keys := api_keys.map (fun k =>
      { key := k, usage_count := 0, last_reset := t0, cooldown_until := 0,
        total_requests := 0, rate_limit_count := 0 }),
    max_per_minute := max_per_minute,
    cooldown_seconds := cooldown_seconds,
    current_index := 0 }

/-- The round-robin scan of `KeyManager.get_available_key`: starting at
`idx`, try up to the given number of attempts; on the first available
key increment its usage and advance the cursor past it, otherwise
advance the cursor and continue. Returns the selected key (if any), the
updated key list, and the final cursor. -/
def tryKeys (max_per_minute : Nat) (current_time : ℤ) (keys : List KeyState) :
    Nat → Nat → Option String × List KeyState × Nat
  | idx, 0 => (none, keys, idx)
  | idx, n + 1 =>
    match keys.get? idx with
    | none => (none, keys, idx)
    | some ks =>
      if ks.is_available max_per_minute current_time then
        (some ks.key, keys.set idx ks.increment_usage, (idx + 1) % keys.length)
      else
        tryKeys max_per_minute current_time keys ((idx + 1) % keys.length) n

/-- `KeyManager.get_available_key`: reset every window that has elapsed,
then scan round-robin from the current cursor, with at most one attempt
per key in the pool. -/
def KeyManager.get_available_key (m : KeyManager) (current_time : ℤ) :
    Option String × KeyManager :=
  let keys := m.keys.map (fun s => s.reset_if_needed current_time)
  let r := tryKeys m.max_per_minute current_time keys m.current_index keys.length
  (r.1, { m with keys := r.2.1, current_index := r.2.2 })

/-- The loop body of `KeyManager.mark_rate_limited`: mark the first state
whose key matches and stop (unknown keys are silently ignored). -/
def markFirst (key : String) (cooldown_seconds : Nat) (current_time : ℤ) :
    List KeyState → List KeyState
  | [] => []
  | ks :: rest =>
    if ks.key = key then ks.mark_rate_limited cooldown_seconds current_time :: rest
    else ks :: markFirst key cooldown_seconds current_time rest

/-- `KeyManager.mark_rate_limited`. -/
def KeyManager.mark_rate_limited (m : KeyManager) (key : String) (current_time : ℤ) :
    KeyManager :=
  { m with keys := markFirst key m.cooldown_seconds current_time m.keys }

/-- One externally visible key-manager operation, tagged with the wall
time at which it runs (`time.time()` taken inside the lock). -/
inductive KMOp where
  | get (t : ℤ)
  | mark (key : String) (t : ℤ)
deriving DecidableEq

/-- The wall time of an operation. -/
def KMOp.time : KMOp → ℤ
  | .get t => t
  | .mark _ t => t

/-- The state transition of a single operation (the returned key of a
`get` is dropped; only the state evolution matters here). -/
def KeyManager.step (m : KeyManager) : KMOp → KeyManager
  | .get t => (m.get_available_key t).2
  | .mark k t => m.mark_rate_limited k t

/-- Run a sequence of operations. -/
def KeyManager.run (m : KeyManager) (ops : List KMOp) : KeyManager :=
  ops.foldl KeyManager.step m

-- Sanity checks of the embedding on concrete inputs.
example : ((KeyManager.init ["a", "b"] 2 60 0).get_available_key 0).1 = some "a" := by decide
example : ((KeyManager.init ["a", "b"] 2 60 0).get_available_key 0).2.current_index = 1 := by
  decide
example :
    (((KeyManager.init ["a"] 1 60 0).run [KMOp.get 0]).get_available_key 0).1 = none := by
  decide
example :
    ((((KeyManager.init ["a"] 1 60 0).run [KMOp.get 0]).get_available_key 61)).1
      = some "a" := by decide
example :
    (((KeyManager.init ["a"] 5 60 0).mark_rate_limited "a" 0).get_available_key 59).1
      = none := by decide

/-! ### Quota invariant (claim C2) -/

/-- Every credential's usage counter is bounded by the per-minute quota. -/
def UsageBounded (mpm : Nat) (keys : List KeyState) : Prop :=
  ∀ s ∈ keys, s.usage_count ≤ mpm

theorem is_available_usage_lt {s : KeyState} {mpm : Nat} {t : ℤ}
    (h : s.is_available mpm t = true) : s.usage_count < mpm := by
  unfold KeyState.is_available at h
  split at h
  · simp at h
  · split at h
    · simp at h
    · omega

theorem tryKeys_usageBounded {mpm : Nat} {t : ℤ} {keys : List KeyState}
    (hb : UsageBounded mpm keys) :
    ∀ (n idx : Nat), UsageBounded mpm (tryKeys mpm t keys idx n).2.1 := by
  intro n
  induction n with
  | zero => intro idx; simpa [tryKeys] using hb
  | succ n ih =>
    intro idx
    simp only [tryKeys]
    cases hget : keys.get? idx with
    | none => simpa using hb
    | some ks =>
      simp only
      by_cases hav : ks.is_available mpm t = true
      · simp only [hav, if_true]
        intro s hs
        rcases List.mem_or_eq_of_mem_set hs with hmem | rfl
        · exact hb s hmem
        · have : ks.usage_count < mpm := is_available_usage_lt hav
          simp [KeyState.increment_usage]
          omega
      · simp only [Bool.not_eq_true] at hav
        simpa [hav] using ih ((idx + 1) % keys.length)

theorem reset_usageBounded {mpm : Nat} {t : ℤ} {keys : List KeyState}
    (hb : UsageBounded mpm keys) :
    UsageBounded mpm (keys.map (fun s => s.reset_if_needed t)) := by
  intro s hs
  rcases List.mem_map.mp hs with ⟨s₀, hmem, rfl⟩
  unfold KeyState.reset_if_needed
  split
  · simp
  · exact hb s₀ hmem

theorem markFirst_usageBounded {mpm cd : Nat} {t : ℤ} {k : String} :
    ∀ {keys : List KeyState}, UsageBounded mpm keys →
      UsageBounded mpm (markFirst k cd t keys) := by
  intro keys
  induction keys with
  | nil => intro _ s hs; simp [markFirst] at hs
  | cons ks rest ih =>
    intro hb s hs
    have hks : ks.usage_count ≤ mpm := hb ks (by simp)
    have hrest : UsageBounded mpm rest := fun x hx => hb x (by simp [hx])
    simp only [markFirst] at hs
    split at hs
    · rcases List.mem_cons.mp hs with rfl | hmem
      · simpa [KeyState.mark_rate_limited] using hks
      · exact hrest s hmem
    · rcases List.mem_cons.mp hs with rfl | hmem
      · exact hks
      · exact ih hrest s hmem

theorem step_usageBounded {mpm : Nat} {m : KeyManager} (hm : m.max_per_minute = mpm)
    (hb : UsageBounded mpm m.keys) (op : KMOp) :
    (m.step op).max_per_minute = mpm ∧ UsageBounded mpm (m.step op).keys := by
  cases op with
  | get t =>
    refine ⟨hm, ?_⟩
    simp only [KeyManager.step, KeyManager.get_available_key, hm]
    exact tryKeys_usageBounded (reset_usageBounded hb) _ _
  | mark k t =>
    exact ⟨hm, markFirst_usageBounded hb⟩

theorem run_usageBounded {mpm : Nat} :
    ∀ (ops : List KMOp) (m : KeyManager), m.max_per_minute = mpm →
      UsageBounded mpm m.keys →
      (m.run ops).max_per_minute = mpm ∧ UsageBounded mpm (m.run ops).keys := by
  intro ops
  induction ops with
  | nil => intro m hm hb; exact ⟨hm, hb⟩
  | cons op rest ih =>
    intro m hm hb
    have h := step_usageBounded hm hb op
    simpa [KeyManager.run, List.foldl_cons] using ih (m.step op) h.1 h.2

/-- C2: for every sequence of `get_available_key` / `mark_rate_limited`
operations on a manager built from any key list, quota and cooldown,
every credential's `usage_count` stays at most `max_per_minute`: the
counter is incremented only after `is_available` passes (which requires
`usage_count < max_per_minute`), and window expiry only resets it to 0. -/
theorem usage_count_le_max_per_minute (api_keys : List String)
    (mpm cd : Nat) (t0 : ℤ) (ops : List KMOp) :
    ∀ s ∈ ((KeyManager.init api_keys mpm cd t0).run ops).keys, s.usage_count ≤ mpm := by
  have hinit : UsageBounded mpm (KeyManager.init api_keys mpm cd t0).keys := by
    intro s hs
    rcases List.mem_map.mp hs with ⟨k, _, rfl⟩
    simp
  exact (run_usageBounded ops _ rfl hinit).2

/-- Witness for C2 at a concrete pool and operation sequence: after two
selections and a rate-limit mark on a quota-1 manager, the (unique)
credential's usage count is within the quota. -/
theorem usage_count_le_max_per_minute_witness :
    (((KeyManager.init ["a", "b"] 1 60 0).run
        [KMOp.get 0, KMOp.get 0, KMOp.mark "a" 0, KMOp.get 1]).keys.headI).usage_count
      ≤ 1 :=
  usage_count_le_max_per_minute ["a", "b"] 1 60 0
    [KMOp.get 0, KMOp.get 0, KMOp.mark "a" 0, KMOp.get 1] _ (by decide)

/-! ### Frame property of an unsuccessful selection (claim C9) -/

theorem tryKeys_none {mpm : Nat} {t : ℤ} {keys : List KeyState} :
    ∀ (n idx : Nat), idx < keys.length →
      ∀ {r : Option String × List KeyState × Nat},
        tryKeys mpm t keys idx n = r → r.1 = none →
        r.2.1 = keys ∧ r.2.2 = (idx + n) % keys.length := by
  intro n
  induction n with
  | zero =>
    intro idx hidx r hr _
    subst hr
    exact ⟨rfl, by simp [tryKeys, Nat.mod_eq_of_lt hidx]⟩
  | succ n ih =>
    intro idx hidx r hr hnone
    have hlen : 0 < keys.length := by omega
    rcases hget : keys.get? idx with _ | ks
    · rw [List.get?_eq_none] at hget
      omega
    · simp only [tryKeys, hget] at hr
      by_cases hav : ks.is_available mpm t = true
      · rw [if_pos hav] at hr
        subst hr
        simp at hnone
      · rw [if_neg hav] at hr
        have hidx' : (idx + 1) % keys.length < keys.length := Nat.mod_lt _ hlen
        have := ih ((idx + 1) % keys.length) hidx' hr hnone
        refine ⟨this.1, ?_⟩
        rw [this.2, Nat.mod_add_mod]
        congr 1
        omega

/-- C9: when `get_available_key` finds no eligible credential, the
manager state is left exactly as it was on entry except that elapsed
60-second windows have been reset: the rotation cursor returns to its
entry value (it advances once per failed attempt, once around the whole
pool), and no other per-credential field changes. -/
theorem get_available_key_none_frame (m : KeyManager) (t : ℤ)
    (hidx : m.current_index < m.keys.length)
    (hnone : (m.get_available_key t).1 = none) :
    (m.get_available_key t).2 =
      { m with keys := m.keys.map (fun s => s.reset_if_needed t) } := by
  unfold KeyManager.get_available_key at *
  simp only at hnone ⊢
  have hlen : (m.keys.map (fun s => s.reset_if_needed t)).length = m.keys.length := by
    simp
  have hidx' : m.current_index < (m.keys.map (fun s => s.reset_if_needed t)).length := by
    omega
  have h := @tryKeys_none m.max_per_minute t (m.keys.map (fun s => s.reset_if_needed t))
    ((m.keys.map (fun s => s.reset_if_needed t)).length) m.current_index hidx' _ rfl hnone
  rw [h.1, h.2]
  congr 1
  rw [hlen, Nat.add_mod_right, Nat.mod_eq_of_lt hidx]

/-- Witness for C9: a one-key pool in cooldown; the unsuccessful
selection leaves the state unchanged up to window resets and keeps the
cursor at 0. -/
theorem get_available_key_none_frame_witness :
    ((((KeyManager.init ["a"] 1 60 0).mark_rate_limited "a" 0).get_available_key 10)).2 =
      { (KeyManager.init ["a"] 1 60 0).mark_rate_limited "a" 0 with
        keys := ((KeyManager.init ["a"] 1 60 0).mark_rate_limited "a" 0).keys.map
          (fun s => s.reset_if_needed 10) } :=
  get_available_key_none_frame _ 10 (by decide) (by decide)

/-! ### Cooldown discipline (claim C3) -/

theorem reset_key_cooldown (s : KeyState) (t : ℤ) :
    (s.reset_if_needed t).key = s.key ∧
      (s.reset_if_needed t).cooldown_until = s.cooldown_until := by
  unfold KeyState.reset_if_needed
  split <;> simp

theorem is_available_not_cooldown {s : KeyState} {mpm : Nat} {t : ℤ}
    (h : s.is_available mpm t = true) : s.cooldown_until ≤ t := by
  unfold KeyState.is_available at h
  split at h
  · simp at h
  · omega

theorem markFirst_mem {k : String} {cd : Nat} {t : ℤ} :
    ∀ {keys : List KeyState} {s' : KeyState}, s' ∈ markFirst k cd t keys →
      s' ∈ keys ∨ ∃ s ∈ keys, s' = s.mark_rate_limited cd t := by
  intro keys
  induction keys with
  | nil => intro s' h; simp [markFirst] at h
  | cons ks rest ih =>
    intro s' h
    simp only [markFirst] at h
    by_cases hkk : ks.key = k
    · rw [if_pos hkk] at h
      rcases List.mem_cons.mp h with rfl | hm
      · exact Or.inr ⟨ks, by simp, rfl⟩
      · exact Or.inl (by simp [hm])
    · rw [if_neg hkk] at h
      rcases List.mem_cons.mp h with rfl | hm
      · exact Or.inl (by simp)
      · rcases ih hm with h1 | ⟨s, hs, rfl⟩
        · exact Or.inl (by simp [h1])
        · exact Or.inr ⟨s, by simp [hs], rfl⟩

theorem markFirst_cooldown_of_nodup {k : String} {cd : Nat} {t : ℤ} :
    ∀ {keys : List KeyState}, (keys.map KeyState.key).Nodup →
      ∀ s' ∈ markFirst k cd t keys, s'.key = k → s'.cooldown_until = t + cd := by
  intro keys
  induction keys with
  | nil => intro _ s' h; simp [markFirst] at h
  | cons ks rest ih =>
    intro hnd s' h hk
    simp only [List.map_cons, List.nodup_cons] at hnd
    simp only [markFirst] at h
    by_cases hkk : ks.key = k
    · rw [if_pos hkk] at h
      rcases List.mem_cons.mp h with rfl | hm
      · simp [KeyState.mark_rate_limited]
      · refine absurd ?_ hnd.1
        rw [hkk, ← hk]
        exact List.mem_map_of_mem KeyState.key hm
    · rw [if_neg hkk] at h
      rcases List.mem_cons.mp h with rfl | hm
      · exact absurd hk hkk
      · exact ih hnd.2 s' hm hk

theorem tryKeys_mem {mpm : Nat} {t : ℤ} {keys : List KeyState} :
    ∀ (n idx : Nat) {s' : KeyState}, s' ∈ (tryKeys mpm t keys idx n).2.1 →
      s' ∈ keys ∨ ∃ s ∈ keys, s' = s.increment_usage := by
  intro n
  induction n with
  | zero => intro idx s' h; exact Or.inl (by simpa [tryKeys] using h)
  | succ n ih =>
    intro idx s' h
    rcases hget : keys.get? idx with _ | ks
    · simp only [tryKeys, hget] at h
      exact Or.inl h
    · simp only [tryKeys, hget] at h
      by_cases hav : ks.is_available mpm t = true
      · rw [if_pos hav] at h
        rcases List.mem_or_eq_of_mem_set h with hm | rfl
        · exact Or.inl hm
        · exact Or.inr ⟨ks, List.get?_mem hget, rfl⟩
      · rw [if_neg hav] at h
        exact ih _ h

theorem tryKeys_some {mpm : Nat} {t : ℤ} {keys : List KeyState} :
    ∀ (n idx : Nat) {key : String},
      (tryKeys mpm t keys idx n).1 = some key →
      ∃ s ∈ keys, s.key = key ∧ s.is_available mpm t = true := by
  intro n
  induction n with
  | zero => intro idx key h; simp [tryKeys] at h
  | succ n ih =>
    intro idx key h
    rcases hget : keys.get? idx with _ | ks
    · simp only [tryKeys, hget] at h
      exact absurd h (by simp)
    · simp only [tryKeys, hget] at h
      by_cases hav : ks.is_available mpm t = true
      · rw [if_pos hav] at h
        simp only [Option.some.injEq] at h
        exact ⟨ks, List.get?_mem hget, h ▸ rfl, hav⟩
      · rw [if_neg hav] at h
        exact ih _ h

/-- A credential named `k` is never eligible again before deadline `c`. -/
def CooldownHolds (k : String) (c : ℤ) (keys : List KeyState) : Prop :=
  ∀ s ∈ keys, s.key = k → c ≤ s.cooldown_until

theorem step_cooldownHolds {k : String} {cd : Nat} {t : ℤ} {m : KeyManager}
    (hcd : m.cooldown_seconds = cd)
    (hc : CooldownHolds k (t + cd) m.keys) (op : KMOp) (hop : t ≤ op.time) :
    (m.step op).cooldown_seconds = cd ∧ CooldownHolds k (t + cd) (m.step op).keys := by
  cases op with
  | get t' =>
    refine ⟨hcd, ?_⟩
    intro s' hs' hk
    simp only [KeyManager.step, KeyManager.get_available_key] at hs'
    rcases tryKeys_mem _ _ hs' with hmem | ⟨s₁, hs₁, rfl⟩
    · rcases List.mem_map.mp hmem with ⟨s₀, hs₀, rfl⟩
      have hkc := reset_key_cooldown s₀ t'
      rw [hkc.2]
      exact hc s₀ hs₀ (by rw [← hkc.1]; exact hk)
    · rcases List.mem_map.mp hs₁ with ⟨s₀, hs₀, rfl⟩
      have hkc := reset_key_cooldown s₀ t'
      simp only [KeyState.increment_usage] at hk ⊢
      rw [hkc.2]
      exact hc s₀ hs₀ (by rw [← hkc.1]; exact hk)
  | mark k' t'' =>
    refine ⟨hcd, ?_⟩
    intro s' hs' hk
    simp only [KeyManager.step, KeyManager.mark_rate_limited] at hs'
    rcases markFirst_mem hs' with hmem | ⟨s₀, hs₀, rfl⟩
    · exact hc s' hmem hk
    · simp only [KeyState.mark_rate_limited] at hk ⊢
      simp only [KMOp.time] at hop
      rw [hcd]
      omega

theorem run_cooldownHolds {k : String} {cd : Nat} {t : ℤ} :
    ∀ (ops : List KMOp) (m : KeyManager), m.cooldown_seconds = cd →
      CooldownHolds k (t + cd) m.keys → (∀ op ∈ ops, t ≤ op.time) →
      (m.run ops).cooldown_seconds = cd ∧
        CooldownHolds k (t + cd) (m.run ops).keys := by
  intro ops
  induction ops with
  | nil => intro m hcd hc _; exact ⟨hcd, hc⟩
  | cons op rest ih =>
    intro m hcd hc hops
    have h := step_cooldownHolds hcd hc op (hops op (by simp))
    have hrest : ∀ o ∈ rest, t ≤ o.time := fun o ho => hops o (by simp [ho])
    simpa [KeyManager.run, List.foldl_cons] using ih (m.step op) h.1 h.2 hrest

/-- C3 counterexample: the claim as stated fails when the configured
pool contains the same key string twice. `mark_rate_limited` only
marks the first matching `KeyState` (it returns after the first
match), so a pool `["a", "a"]` still hands out `"a"` from the second
state immediately after the mark, before the cooldown has elapsed
(here at time 0, strictly before 0 + cooldown_seconds). -/
theorem cooldown_claim_counterexample :
    (((KeyManager.init ["a", "a"] 1 60 0).mark_rate_limited "a" 0).get_available_key 0).1
        = some "a"
      ∧ (0 : ℤ) < 0 + ((KeyManager.init ["a", "a"] 1 60 0).cooldown_seconds : ℤ) := by
  decide

/-- C3 (amended): assuming the configured key strings are pairwise
distinct, and that wall time never decreases (every operation after the
mark carries a timestamp ≥ t), after `mark_rate_limited k` at time `t`
no `get_available_key` whose current time is strictly before
`t + cooldown_seconds` returns `k`. -/
theorem cooldown_blocks_key (m : KeyManager) (k : String) (t : ℤ)
    (ops : List KMOp) (t' : ℤ)
    (hnd : (m.keys.map KeyState.key).Nodup)
    (hops : ∀ op ∈ ops, t ≤ op.time)
    (ht' : t' < t + m.cooldown_seconds) :
    (((m.mark_rate_limited k t).run ops).get_available_key t').1 ≠ some k := by
  intro hsome
  have hest : CooldownHolds k (t + m.cooldown_seconds)
      (m.mark_rate_limited k t).keys := by
    intro s hs hk
    have := markFirst_cooldown_of_nodup hnd s hs hk
    omega
  have hrun := run_cooldownHolds ops
    (m.mark_rate_limited k t) rfl hest hops
  unfold KeyManager.get_available_key at hsome
  obtain ⟨s', hs', hk', hav⟩ := tryKeys_some _ _ hsome
  rcases List.mem_map.mp hs' with ⟨s₀, hs₀, rfl⟩
  have hkc := reset_key_cooldown s₀ t'
  have hcool : t + m.cooldown_seconds ≤ s₀.cooldown_until :=
    hrun.2 s₀ hs₀ (by rw [← hkc.1]; exact hk')
  have hle := is_available_not_cooldown hav
  rw [hkc.2] at hle
  omega

/-- Witness for C3 (amended) at a concrete pool with distinct keys:
after marking "a" at time 0, a selection at time 30 (< 0 + 60) does not
return "a", even with an intermediate selection at time 10. -/
theorem cooldown_blocks_key_witness :
    ((((KeyManager.init ["a", "b"] 5 60 0).mark_rate_limited "a" 0).run
        [KMOp.get 10]).get_available_key 30).1 ≠ some "a" :=
  cooldown_blocks_key (KeyManager.init ["a", "b"] 5 60 0) "a" 0 [KMOp.get 10] 30
    (by decide) (by decide) (by decide)

/-! ## In-process retry wrapper
Embedding of `with_rate_limit_retry` from
`src/gemini-client/src/utils/retry.py`.  The decorated coroutine is
modelled as a function from the attempt index to the outcome of that
attempt; the wrapper returns the final outcome together with the list
of backoff sleeps it performed, in order.  Delay parameters are exact
integers for the values used by the code (`base_delay=5.0`,
`exponential_base=2.0`, `max_delay=60.0`). -/

/-- Outcome of one underlying call: normal return, a `RateLimitError`,
a `LocationError`, or any other exception. -/
inductive AttemptResult (α : Type) where
  | ok (a : α)
  | rateLimited (msg : String)
  | locationError (msg : String)
  | otherError (msg : String)
deriving DecidableEq

/-- Is this outcome one of the two retryable exception types? -/
def AttemptResult.retryable {α : Type} : AttemptResult α → Bool
  | .rateLimited _ => true
  | .locationError _ => true
  | _ => false

/-- The `for attempt in range(max_retries + 1)` loop of
`with_rate_limit_retry`: `fuel` is the number of loop iterations left
and `last` the last retryable exception seen (for the defensive
re-raise after the loop, which is unreachable when the wrapper is
entered with `fuel = max_retries + 1`). -/
def retryLoop {α : Type} (f : Nat → AttemptResult α) (max_retries : Nat)
    (base_delay max_delay exp_base : ℤ) :
    Nat → Nat → Option (AttemptResult α) → AttemptResult α × List ℤ
  | _, 0, last =>
    (match last with
     | some e => e
     | none => .otherError "loop exhausted", [])
  | attempt, fuel + 1, _ =>
    match f attempt with
    | .ok a => (.ok a, [])
    | .rateLimited m =>
      if attempt < max_retries then
        let d := min (base_delay * exp_base ^ attempt) max_delay
        let r := retryLoop f max_retries base_delay max_delay exp_base
          (attempt + 1) fuel (some (.rateLimited m))
        (r.1, d :: r.2)
      else (.rateLimited m, [])
    | .locationError m =>
      if attempt < max_retries then
        let d := min (base_delay * exp_base ^ attempt) max_delay
        let r := retryLoop f max_retries base_delay max_delay exp_base
          (attempt + 1) fuel (some (.locationError m))
        (r.1, d :: r.2)
      else (.locationError m, [])
    | .otherError m => (.otherError m, [])

/-- `with_rate_limit_retry(max_retries, base_delay, max_delay,
exponential_base)` applied to a coroutine `f`. -/
def with_rate_limit_retry {α : Type} (max_retries : Nat)
    (base_delay max_delay exp_base : ℤ) (f : Nat → AttemptResult α) :
    AttemptResult α × List ℤ :=
  retryLoop f max_retries base_delay max_delay exp_base 0 (max_retries + 1) none

/-- The wrapper exactly as applied to `OpenRouterClient.generate_content`
(`@with_rate_limit_retry(max_retries=3, base_delay=5.0, max_delay=60.0)`,
exponential base left at its default 2.0). -/
def generate_content_retry {α : Type} (f : Nat → AttemptResult α) :
    AttemptResult α × List ℤ :=
  with_rate_limit_retry 3 5 60 2 f

-- Sanity checks of the retry embedding.
example :
    generate_content_retry (fun _ => (AttemptResult.rateLimited "rl" : AttemptResult Unit)) =
      (.rateLimited "rl", [5, 10, 20]) := by decide
example :
    generate_content_retry (fun n =>
      if n < 2 then AttemptResult.rateLimited "rl" else .ok true) =
      (.ok true, [5, 10]) := by decide
example :
    generate_content_retry (fun _ => (AttemptResult.otherError "boom" : AttemptResult Unit)) =
      (.otherError "boom", []) := by decide

/-! ### The retry policy (claim C7) -/

theorem retryLoop_length_le {α : Type} (f : Nat → AttemptResult α) (mr : Nat)
    (b md e : ℤ) :
    ∀ (fuel attempt : Nat) (last : Option (AttemptResult α)),
      (retryLoop f mr b md e attempt fuel last).2.length ≤ mr - attempt := by
  intro fuel
  induction fuel with
  | zero => intro attempt last; cases last <;> simp [retryLoop]
  | succ fuel ih =>
    intro attempt last
    rcases hf : f attempt with a | m | m | m
    · simp [retryLoop, hf]
    · by_cases hlt : attempt < mr
      · simp only [retryLoop, hf, if_pos hlt]
        have := ih (attempt + 1) (some (.rateLimited m))
        simp only [List.length_cons]
        omega
      · simp [retryLoop, hf, hlt]
    · by_cases hlt : attempt < mr
      · simp only [retryLoop, hf, if_pos hlt]
        have := ih (attempt + 1) (some (.locationError m))
        simp only [List.length_cons]
        omega
      · simp [retryLoop, hf, hlt]
    · simp [retryLoop, hf]

theorem retryLoop_sleep_values {α : Type} (f : Nat → AttemptResult α) (mr : Nat)
    (b md e : ℤ) :
    ∀ (fuel attempt : Nat) (last : Option (AttemptResult α)) (i : Nat),
      i < (retryLoop f mr b md e attempt fuel last).2.length →
      (retryLoop f mr b md e attempt fuel last).2.get? i =
        some (min (b * e ^ (attempt + i)) md) := by
  intro fuel
  induction fuel with
  | zero =>
    intro attempt last i h
    cases last <;> simp [retryLoop] at h
  | succ fuel ih =>
    intro attempt last i h
    rcases hf : f attempt with a | m | m | m
    · simp [retryLoop, hf] at h
    · by_cases hlt : attempt < mr
      · simp only [retryLoop, hf, if_pos hlt] at h ⊢
        cases i with
        | zero => simp
        | succ i =>
          simp only [List.length_cons] at h
          have hrec := ih (attempt + 1) (some (.rateLimited m)) i (by omega)
          have harith : attempt + 1 + i = attempt + (i + 1) := by omega
          rw [harith] at hrec
          simpa using hrec
      · simp [retryLoop, hf, hlt] at h
    · by_cases hlt : attempt < mr
      · simp only [retryLoop, hf, if_pos hlt] at h ⊢
        cases i with
        | zero => simp
        | succ i =>
          simp only [List.length_cons] at h
          have hrec := ih (attempt + 1) (some (.locationError m)) i (by omega)
          have harith : attempt + 1 + i = attempt + (i + 1) := by omega
          rw [harith] at hrec
          simpa using hrec
      · simp [retryLoop, hf, hlt] at h
    · simp [retryLoop, hf] at h

theorem retryable_eq {α : Type} {r : AttemptResult α} (h : r.retryable = true) :
    (∃ m, r = .rateLimited m) ∨ (∃ m, r = .locationError m) := by
  cases r with
  | ok a => simp [AttemptResult.retryable] at h
  | rateLimited m => exact Or.inl ⟨m, rfl⟩
  | locationError m => exact Or.inr ⟨m, rfl⟩
  | otherError m => simp [AttemptResult.retryable] at h

theorem generate_retry_exhausted {α : Type} (f : Nat → AttemptResult α)
    (hr : ∀ a, a ≤ 3 → (f a).retryable = true) :
    generate_content_retry f = (f 3, [5, 10, 20]) := by
  have h0 := hr 0 (by omega)
  have h1 := hr 1 (by omega)
  have h2 := hr 2 (by omega)
  have h3 := hr 3 (by omega)
  rcases retryable_eq h0 with ⟨m0, hf0⟩ | ⟨m0, hf0⟩ <;>
    rcases retryable_eq h1 with ⟨m1, hf1⟩ | ⟨m1, hf1⟩ <;>
    rcases retryable_eq h2 with ⟨m2, hf2⟩ | ⟨m2, hf2⟩ <;>
    rcases retryable_eq h3 with ⟨m3, hf3⟩ | ⟨m3, hf3⟩ <;>
    norm_num [generate_content_retry, with_rate_limit_retry, retryLoop,
      hf0, hf1, hf2, hf3]

theorem generate_retry_immediate_raise {α : Type} (f : Nat → AttemptResult α)
    (a : Nat) (m : String) (ha : a ≤ 3)
    (hpre : ∀ b, b < a → (f b).retryable = true)
    (hfa : f a = .otherError m) :
    generate_content_retry f =
      (.otherError m, (List.range a).map (fun i => min ((5 : ℤ) * 2 ^ i) 60)) := by
  interval_cases a
  · norm_num [generate_content_retry, with_rate_limit_retry, retryLoop, hfa]
  · rcases retryable_eq (hpre 0 (by omega)) with ⟨m0, hf0⟩ | ⟨m0, hf0⟩ <;>
      norm_num [generate_content_retry, with_rate_limit_retry, retryLoop, hf0, hfa] <;>
      decide
  · rcases retryable_eq (hpre 0 (by omega)) with ⟨m0, hf0⟩ | ⟨m0, hf0⟩ <;>
      rcases retryable_eq (hpre 1 (by omega)) with ⟨m1, hf1⟩ | ⟨m1, hf1⟩ <;>
      norm_num [generate_content_retry, with_rate_limit_retry, retryLoop,
        hf0, hf1, hfa] <;>
      decide
  · rcases retryable_eq (hpre 0 (by omega)) with ⟨m0, hf0⟩ | ⟨m0, hf0⟩ <;>
      rcases retryable_eq (hpre 1 (by omega)) with ⟨m1, hf1⟩ | ⟨m1, hf1⟩ <;>
      rcases retryable_eq (hpre 2 (by omega)) with ⟨m2, hf2⟩ | ⟨m2, hf2⟩ <;>
      norm_num [generate_content_retry, with_rate_limit_retry, retryLoop,
        hf0, hf1, hf2, hfa] <;>
      decide

/-- C7: the wrapper on `generate_content` performs at most 3 retries;
the sleep before the (0-indexed) retry number `i` is exactly
`min(5 · 2^i, 60)` seconds; when every attempt 0..3 raises a retryable
error (`RateLimitError` / `LocationError`) the last error is re-raised
after the 3 retries with sleeps 5, 10, 20; and a non-retryable error at
any attempt is raised at once, with no further sleeps. -/
theorem in_process_retry_policy {α : Type} (f : Nat → AttemptResult α) :
    (generate_content_retry f).2.length ≤ 3 ∧
    (∀ i, i < (generate_content_retry f).2.length →
      (generate_content_retry f).2.get? i = some (min ((5 : ℤ) * 2 ^ i) 60)) ∧
    ((∀ a, a ≤ 3 → (f a).retryable = true) →
      generate_content_retry f = (f 3, [5, 10, 20])) ∧
    (∀ a m, a ≤ 3 → (∀ b, b < a → (f b).retryable = true) →
      f a = AttemptResult.otherError m →
      generate_content_retry f =
        (.otherError m, (List.range a).map (fun i => min ((5 : ℤ) * 2 ^ i) 60))) := by
  refine ⟨?_, ?_, generate_retry_exhausted f, fun a m ha hp hf =>
    generate_retry_immediate_raise f a m ha hp hf⟩
  · simpa using retryLoop_length_le f 3 5 60 2 4 0 none
  · intro i h
    simpa using retryLoop_sleep_values f 3 5 60 2 4 0 none i h

/-- Witness for C7: with every attempt rate-limited the wrapper sleeps
5, 10, 20 and re-raises; with an immediately non-retryable error it
raises at once with no sleeps. -/
theorem in_process_retry_policy_witness :
    generate_content_retry (fun _ => (AttemptResult.rateLimited "quota" : AttemptResult Unit)) =
        (AttemptResult.rateLimited "quota", [5, 10, 20]) ∧
      generate_content_retry (fun _ => (AttemptResult.otherError "auth" : AttemptResult Unit)) =
        (AttemptResult.otherError "auth", []) := by
  constructor
  · exact (in_process_retry_policy _).2.2.1 (fun a _ => rfl)
  · have h := (in_process_retry_policy
      (fun _ => (AttemptResult.otherError "auth" : AttemptResult Unit))).2.2.2 0 "auth"
      (by omega) (fun b hb => absurd hb (by omega)) rfl
    simpa using h

/-! ## Envelopes
Embedding of `src/gemini-client/src/schemas/request.py` and
`src/gemini-client/src/schemas/response.py` (pydantic v2 models).
JSON documents are modelled by `JsonVal`; datetime values are modelled
as integer epochs (`JsonVal.num` with denominator 1), and string-form
coercions that pydantic's lax mode would additionally accept are not
modelled (no claim depends on them). -/

/-- A JSON value as produced by `json.loads`. -/
inductive JsonVal where
  | str (s : String)
  | num (q : ℚ)
  | bool (b : Bool)
  | null
  | arr (elems : List JsonVal)
  | obj (fields : List (String × JsonVal))

/-- `TokenUsage` (all counters validated ≥ 0, hence `Nat`). -/
structure TokenUsage where
  prompt_tokens : Nat
  completion_tokens : Nat
  total_tokens : Nat
deriving DecidableEq

/-- `GenerationParameters` with its pydantic field bounds reflected in
the decoder below. -/
structure GenerationParameters where
  temperature : ℚ
  top_p : ℚ
  top_k : Nat
  max_output_tokens : Nat
  candidate_count : Nat
  stop_sequences : Option (List String)
deriving DecidableEq

/-- The field defaults of `GenerationParameters`
(0.7, 0.95, 40, 8192, 1, None). -/
def GenerationParameters.defaults : GenerationParameters :=
  { temperature := ⟨7, 10, by norm_num, by norm_num⟩,
    top_p := ⟨19, 20, by norm_num, by norm_num⟩,
    top_k := 40,
    max_output_tokens := 8192,
    candidate_count := 1,
    stop_sequences := none }

/-- `GeminiRequestMessage`.  The UUID `request_id` is kept in its
canonical string form; `metadata: dict[str, Any] | None` keeps its raw
JSON fields. -/
structure GeminiRequestMessage where
  request_id : String
  prompt : String
  model : String
  parameters : GenerationParameters
  callback_queue : String
  timestamp : ℤ
  retry_count : Nat
  metadata : Option (List (String × JsonVal))
  system_instruction : Option String

/-- The `status` literal of a response envelope. -/
inductive RespStatus where
  | success
  | error
deriving DecidableEq

/-- `GeminiResponseMessage`.  Note: the schema declares *no* `metadata`
field.  pydantic models ignore unknown keyword arguments at
construction by default, so the `metadata=request.metadata` argument
passed at all three construction sites in `main.py` is silently
dropped; consequently this structure, like the Python schema, cannot
carry metadata. -/
structure GeminiResponseMessage where
  request_id : String
  status : RespStatus
  content : Option String
  error : Option String
  usage : Option TokenUsage
  timestamp : ℤ
  processing_time_ms : Option ℤ
  model_used : Option String
deriving DecidableEq

/-! ### Decoding a request envelope
`AsyncConsumer.on_message` runs `json.loads` and then
`GeminiRequestMessage(**data)`.  `decodeRequest` models the combined
validation: `none` is any raised `ValidationError`/`TypeError`. -/

/-- The fields declared by `GeminiRequestMessage`. -/
def requestFieldNames : List String :=
  ["request_id", "prompt", "model", "parameters", "callback_queue",
   "timestamp", "retry_count", "metadata", "system_instruction"]

def isHexDigit (c : Char) : Bool :=
  "0123456789abcdefABCDEF".toList.contains c

/-- Canonical hyphenated UUID form accepted for `request_id`. -/
def isUuidString (s : String) : Bool :=
  let cs := s.toList
  cs.length == 36 &&
    (List.range 36).all (fun i =>
      if i == 8 || i == 13 || i == 18 || i == 23 then cs.getD i ' ' == '-'
      else isHexDigit (cs.getD i ' '))

/-- Decode a float field with bounds `ge`/`le` and a default. -/
def decodeRatIn (lo hi dflt : ℚ) : Option JsonVal → Option ℚ
  | none => some dflt
  | some (.num q) => if lo ≤ q ∧ q ≤ hi then some q else none
  | some _ => none

/-- Decode an int field with bounds `ge`/`le` and a default. -/
def decodeNatIn (lo hi dflt : Nat) : Option JsonVal → Option Nat
  | none => some dflt
  | some (.num q) =>
    if q.den = 1 ∧ (lo : ℤ) ≤ q.num ∧ q.num ≤ (hi : ℤ) then some q.num.toNat else none
  | some _ => none

def decodeStringList : List JsonVal → Option (List String)
  | [] => some []
  | .str s :: rest => (decodeStringList rest).map (s :: ·)
  | _ => none

/-- Decode `stop_sequences: list[str] | None = None`. -/
def decodeStopSequences : Option JsonVal → Option (Option (List String))
  | none => some none
  | some .null => some none
  | some (.arr xs) => (decodeStringList xs).map some
  | some _ => none

/-- Decode the nested `parameters` object (unknown fields inside it are
likewise ignored by pydantic; the decoder only consults the declared
names). -/
def decodeParameters : JsonVal → Option GenerationParameters
  | .obj fs => do
    let temperature ← decodeRatIn 0 2 GenerationParameters.defaults.temperature
      (List.lookup "temperature" fs)
    let top_p ← decodeRatIn 0 1 GenerationParameters.defaults.top_p
      (List.lookup "top_p" fs)
    let top_k ← decodeNatIn 1 100 40 (List.lookup "top_k" fs)
    let max_output_tokens ← decodeNatIn 1 32768 8192 (List.lookup "max_output_tokens" fs)
    let candidate_count ← decodeNatIn 1 8 1 (List.lookup "candidate_count" fs)
    let stop_sequences ← decodeStopSequences (List.lookup "stop_sequences" fs)
    pure { temperature, top_p, top_k, max_output_tokens, candidate_count, stop_sequences }
  | _ => none

/-- Decode the request envelope from the values found for its nine
declared fields (pydantic consults only the declared names; everything
else in the object is ignored).  `now` supplies the
`default_factory=datetime.utcnow` timestamp used when the field is
absent. -/
def decodeRequestLookups (now : ℤ)
    (f_request_id f_prompt f_model f_parameters f_callback_queue
      f_timestamp f_retry_count f_metadata f_system_instruction :
      Option JsonVal) :
    Option GeminiRequestMessage := do
  let request_id ← match f_request_id with
    | some (.str s) => if isUuidString s then some s else none
    | _ => none
  let prompt ← match f_prompt with
    | some (.str s) => if 1 ≤ s.length then some s else none
    | _ => none
  let model ← match f_model with
    | none => some "gemini-2.5-flash"
    | some (.str s) => some s
    | some _ => none
  let parameters ← match f_parameters with
    | none => some GenerationParameters.defaults
    | some v => decodeParameters v
  let callback_queue ← match f_callback_queue with
    | none => some "gemini.responses"
    | some (.str s) => some s
    | some _ => none
  let timestamp ← match f_timestamp with
    | none => some now
    | some (.num q) => if q.den = 1 then some q.num else none
    | some _ => none
  let retry_count ← match f_retry_count with
    | none => some 0
    | some (.num q) => if q.den = 1 ∧ 0 ≤ q.num then some q.num.toNat else none
    | some _ => none
  let metadata ← match f_metadata with
    | none => some none
    | some .null => some none
    | some (.obj mfs) => some (some mfs)
    | some _ => none
  let system_instruction ← match f_system_instruction with
    | none => some none
    | some .null => some none
    | some (.str s) => some (some s)
    | some _ => none
  pure { request_id, prompt, model, parameters, callback_queue, timestamp,
         retry_count, metadata, system_instruction }

/-- Decode the request envelope from a JSON object's fields by looking
up each declared name. -/
def decodeRequestFields (now : ℤ) (fs : List (String × JsonVal)) :
    Option GeminiRequestMessage :=
  decodeRequestLookups now
    (List.lookup "request_id" fs) (List.lookup "prompt" fs)
    (List.lookup "model" fs) (List.lookup "parameters" fs)
    (List.lookup "callback_queue" fs) (List.lookup "timestamp" fs)
    (List.lookup "retry_count" fs) (List.lookup "metadata" fs)
    (List.lookup "system_instruction" fs)

/-- Decode a request envelope from a parsed JSON document (a non-object
document makes `GeminiRequestMessage(**data)` raise). -/
def decodeRequest (now : ℤ) : JsonVal → Option GeminiRequestMessage
  | .obj fs => decodeRequestFields now fs
  | _ => none

-- Sanity checks of the decoder.
example :
    (decodeRequest 0 (.obj
      [("request_id", .str "123e4567-e89b-12d3-a456-426614174000"),
       ("prompt", .str "hi")])).isSome = true := by rfl
example : (decodeRequest 0 (.obj [("prompt", .str "hi")])) = none := by rfl
example :
    (decodeRequest 0 (.obj
      [("request_id", .str "123e4567-e89b-12d3-a456-426614174000"),
       ("prompt", .str "")])) = none := by rfl
example : (decodeRequest 0 (.str "not-json-object")) = none := by rfl
example :
    (decodeRequest 0 (.obj
      [("request_id", .str "123e4567-e89b-12d3-a456-426614174000"),
       ("prompt", .str "hi"),
       ("parameters", .obj [("temperature", .num 3)])])) = none := by rfl

/-! ## Broker effects, the delay-requeue helper and the dispatch loop
Embedding of `AsyncConsumer.requeue_with_delay` and
`AsyncConsumer.start_consuming.on_message`
(`src/gemini-client/src/worker/consumer.py`),
`AsyncPublisher.publish` (`src/gemini-client/src/worker/publisher.py`)
and `GeminiWorker.process_request` /
`GeminiWorker._handle_no_keys_available`
(`src/gemini-client/src/main.py`).

The broker-visible behaviour of one delivery is a list of `Effect`s in
the order they were performed.  A publish that fails leaves no effect
(the message was not enqueued) and surfaces as a raised exception.
Outcomes of the external world are fixed by a `DispatchEnv`: the `n`-th
`get_available_key` result, the `n`-th `generate_content` outcome (as
it escapes the in-process retry wrapper), the success of the `n`-th
response publish, and the success of the delay-queue declare / publish
/ ack used by `requeue_with_delay`. -/

/-- One broker-visible action of the worker for a single delivery. -/
inductive Effect where
  | respPublished (resp : GeminiResponseMessage) (queue : String)
  | delayQueueDeclared (queue : String) (ttl_ms : Nat) (dlx : String) (dlrk : String)
  | delayPublished (queue : String) (req : GeminiRequestMessage) (expiration_ms : Nat)
  | acked
  | rejected (requeue : Bool)

/-- Outcomes of the three broker operations inside `requeue_with_delay`. -/
structure BrokerOutcome where
  declare_ok : Bool
  publish_ok : Bool
  ack_ok : Bool
deriving DecidableEq

/-- Outcome of one `generate_content` call as it escapes the in-process
retry wrapper: a value, a `RateLimitError`, or any other exception
(`LocationError` after exhausted retries, `ValueError`, timeouts, …). -/
inductive CallResult where
  | ok (content : String) (usage : TokenUsage)
  | rateLimited (msg : String)
  | otherRaise (msg : String)

/-- Environment oracle for one delivery. -/
structure DispatchEnv where
  keys : Nat → Option String
  call : Nat → CallResult
  publish_ok : Nat → Bool
  delayBroker : BrokerOutcome

/-- Indices of the next environment query of each kind. -/
structure EnvSt where
  gi : Nat
  ci : Nat
  pj : Nat
deriving DecidableEq

/-- How one `process_request` invocation ends: normal return, an
exception escaping it, or (a model artifact) recursion fuel running
out, standing for a non-terminating recursion. -/
inductive DResult where
  | done
  | raised (msg : String)
  | outOfFuel
deriving DecidableEq

/-- The message text the model uses for an exception raised by a failed
broker publish (the concrete `aio_pika` message text is irrelevant to
every claim). -/
def publishFailureMsg : String := "publish failed"

/-- Worker configuration consumed by the dispatch loop. -/
structure WorkerConfig where
  queue_max_retries : Nat
  retry_delays : List Nat
  request_queue : String
deriving DecidableEq

/-- The auxiliary queue name `f"{queue_name}.delay.{delay_seconds}s"`. -/
def delayQueueName (queue_name : String) (delay_seconds : Nat) : String :=
  queue_name ++ ".delay." ++ toString delay_seconds ++ "s"

/-- `AsyncConsumer.requeue_with_delay`: bump `retry_count`, refresh
`timestamp`, declare the per-delay queue (TTL `delay_seconds * 1000`,
empty dead-letter exchange, dead-letter routing key = the request
queue), publish the copy there (with a matching per-message
`expiration`), then ACK the original.  Any failure is caught and the
original message is rejected without requeue; the exception is
swallowed, so this function always returns normally. -/
def requeue_with_delay (queue_name : String) (brk : BrokerOutcome)
    (req : GeminiRequestMessage) (now : ℤ) (delay_seconds : Nat) : List Effect :=
  let req' := { req with retry_count := req.retry_count + 1, timestamp := now }
  let dq := delayQueueName queue_name delay_seconds
  if brk.declare_ok then
    if brk.publish_ok then
      if brk.ack_ok then
        [.delayQueueDeclared dq (delay_seconds * 1000) "" queue_name,
         .delayPublished dq req' (delay_seconds * 1000),
         .acked]
      else
        [.delayQueueDeclared dq (delay_seconds * 1000) "" queue_name,
         .delayPublished dq req' (delay_seconds * 1000),
         .rejected false]
    else
      [.delayQueueDeclared dq (delay_seconds * 1000) "" queue_name, .rejected false]
  else
    [.rejected false]

/-- The success response built in `process_request` (the `metadata=`
keyword argument is dropped by the schema, see `GeminiResponseMessage`). -/
def mkSuccessResponse (req : GeminiRequestMessage) (content : String)
    (usage : TokenUsage) (now elapsed : ℤ) : GeminiResponseMessage :=
  { request_id := req.request_id, status := .success, content := some content,
    error := none, usage := some usage, timestamp := now,
    processing_time_ms := some elapsed, model_used := some req.model }

/-- The error response built in the generic `except` handler of
`process_request`: `error=str(e)`, with processing time but no model. -/
def mkGenericErrorResponse (req : GeminiRequestMessage) (msg : String)
    (now elapsed : ℤ) : GeminiResponseMessage :=
  { request_id := req.request_id, status := .error, content := none,
    error := some msg, usage := none, timestamp := now,
    processing_time_ms := some elapsed, model_used := none }

/-- The terminal error response of `_handle_no_keys_available` (neither
`processing_time_ms` nor `model_used` is passed there). -/
def mkMaxRetriesResponse (req : GeminiRequestMessage) (max_retries : Nat)
    (now : ℤ) : GeminiResponseMessage :=
  { request_id := req.request_id, status := .error, content := none,
    error := some ("Rate limit exceeded after " ++ toString max_retries ++ " retries"),
    usage := none, timestamp := now, processing_time_ms := none, model_used := none }

/-- `GeminiWorker._handle_no_keys_available`.  If the retry budget is
exhausted, publish the terminal error and ACK (a publish failure raises
into the caller's generic handler); otherwise look up the escalating
delay `retry_delays[min(retry_count, len(retry_delays) - 1)]` and
delegate to `requeue_with_delay`.  (`getD … 0` is exact for every
validated configuration, whose `retry_delays` is non-empty.) -/
def handle_no_keys (cfg : WorkerConfig) (env : DispatchEnv)
    (req : GeminiRequestMessage) (now : ℤ) (st : EnvSt) :
    List Effect × EnvSt × DResult :=
  if cfg.queue_max_retries ≤ req.retry_count then
    let resp := mkMaxRetriesResponse req cfg.queue_max_retries now
    if env.publish_ok st.pj then
      ([.respPublished resp req.callback_queue, .acked],
       { st with pj := st.pj + 1 }, .done)
    else
      ([], { st with pj := st.pj + 1 }, .raised publishFailureMsg)
  else
    let d := cfg.retry_delays.getD
      (min req.retry_count (cfg.retry_delays.length - 1)) 0
    (requeue_with_delay cfg.request_queue env.delayBroker req now d, st, .done)

/-- The `except Exception` handler wrapping the whole body of
`process_request`: on an escaping exception, publish a generic error
response with `error=str(e)` and ACK; if that publish fails too, the
new exception propagates to `on_message`.  Normal returns (and the
out-of-fuel artifact) pass through untouched. -/
def exceptWrap (env : DispatchEnv) (req : GeminiRequestMessage) (now elapsed : ℤ)
    (b : List Effect × EnvSt × DResult) : List Effect × EnvSt × DResult :=
  match b with
  | (fx, st', .raised msg) =>
    if env.publish_ok st'.pj then
      (fx ++ [.respPublished (mkGenericErrorResponse req msg now elapsed)
                req.callback_queue,
              .acked],
       { st' with pj := st'.pj + 1 }, .done)
    else
      (fx, { st' with pj := st'.pj + 1 }, .raised publishFailureMsg)
  | other => other

/-- `GeminiWorker.process_request`.  The outer `try` covers the whole
body, including `_handle_no_keys_available` and the recursive retry
call; `exceptWrap` is its `except Exception` handler.
`mark_rate_limited` touches only the key manager, so it leaves no
broker effect; `message.ack()` after a successful publish is modelled
as succeeding.  The recursion depth is bounded by `fuel`; the source
recursion is unbounded (it re-enters `process_request` whenever another
key is available after a `RateLimitError`). -/
def processRequest (cfg : WorkerConfig) (env : DispatchEnv)
    (req : GeminiRequestMessage) (now elapsed : ℤ) :
    Nat → EnvSt → List Effect × EnvSt × DResult
  | 0, st => ([], st, .outOfFuel)
  | fuel + 1, st =>
    exceptWrap env req now elapsed <|
      match env.keys st.gi with
      | none => handle_no_keys cfg env req now { st with gi := st.gi + 1 }
      | some _ =>
        let st1 : EnvSt := { st with gi := st.gi + 1 }
        match env.call st1.ci with
        | .ok content usage =>
          let st2 : EnvSt := { st1 with ci := st1.ci + 1 }
          let resp := mkSuccessResponse req content usage now elapsed
          if env.publish_ok st2.pj then
            ([.respPublished resp req.callback_queue, .acked],
             { st2 with pj := st2.pj + 1 }, .done)
          else
            ([], { st2 with pj := st2.pj + 1 }, .raised publishFailureMsg)
        | .rateLimited _ =>
          let st2 : EnvSt := { st1 with ci := st1.ci + 1 }
          match env.keys st2.gi with
          | some _ =>
            processRequest cfg env req now elapsed fuel { st2 with gi := st2.gi + 1 }
          | none => handle_no_keys cfg env req now { st2 with gi := st2.gi + 1 }
        | .otherRaise msg =>
          ([], { st1 with ci := st1.ci + 1 }, .raised msg)

/-- The tail of `on_message` after the handler returns: an exception
escaping `process_request` is caught by `on_message`'s generic handler,
which rejects the delivery without requeue; a normal return (or the
out-of-fuel artifact) adds nothing. -/
def settle (pr : List Effect × EnvSt × DResult) : List Effect :=
  match pr with
  | (fx, _, .done) => fx
  | (fx, _, .raised _) => fx ++ [.rejected false]
  | (fx, _, .outOfFuel) => fx

/-- `AsyncConsumer.start_consuming.on_message`: decode the body (JSON
parse + envelope validation; `body = none` stands for an unparsable
body) and hand off to `process_request`; a decode failure or an
exception escaping the handler rejects the delivery without requeue. -/
def on_message (cfg : WorkerConfig) (env : DispatchEnv)
    (body : Option JsonVal) (now elapsed : ℤ) (fuel : Nat) : List Effect :=
  (body.bind (decodeRequest now)).elim [.rejected false]
    (fun req => settle (processRequest cfg env req now elapsed fuel
      { gi := 0, ci := 0, pj := 0 }))

/-! ### Concrete fixtures shared by the dispatch theorems -/

/-- A well-formed request carrying a metadata object. -/
def reqA : GeminiRequestMessage :=
  { request_id := "123e4567-e89b-12d3-a456-426614174000", prompt := "hi",
    model := "m1", parameters := GenerationParameters.defaults,
    callback_queue := "cb", timestamp := 0, retry_count := 0,
    metadata := some [("trace", JsonVal.str "t1")], system_instruction := none }

/-- The default worker configuration
(`QUEUE_MAX_RETRIES=4`, `QUEUE_RETRY_DELAYS=60,600,3600,86400`). -/
def cfgA : WorkerConfig :=
  { queue_max_retries := 4, retry_delays := [60, 600, 3600, 86400],
    request_queue := "gemini.requests" }

/-- Happy-path environment: a key is always available, the upstream call
returns "hello" with usage (1, 2, 3), and every broker operation works. -/
def envHappy : DispatchEnv :=
  { keys := fun _ => some "k1", call := fun _ => .ok "hello" ⟨1, 2, 3⟩,
    publish_ok := fun _ => true, delayBroker := ⟨true, true, true⟩ }

-- Sanity checks of the dispatch embedding.
example :
    (processRequest cfgA envHappy reqA 0 7 5 ⟨0, 0, 0⟩).2.2 = DResult.done := by rfl
example :
    on_message cfgA envHappy (some (.str "oops")) 0 7 5 = [.rejected false] := by rfl
example :  -- rate-limited once, then a second key succeeds
    (processRequest cfgA
      { envHappy with call := fun n => if n == 0 then .rateLimited "429" else .ok "ok" ⟨1, 1, 2⟩ }
      reqA 0 7 5 ⟨0, 0, 0⟩).1 =
      [Effect.respPublished (mkSuccessResponse reqA "ok" ⟨1, 1, 2⟩ 0 7) "cb",
       Effect.acked] := by rfl
example :  -- upstream auth error: one terminal error response, then ACK
    (processRequest cfgA { envHappy with call := fun _ => .otherRaise "Invalid API key: x" }
      reqA 0 7 5 ⟨0, 0, 0⟩).1 =
      [Effect.respPublished (mkGenericErrorResponse reqA "Invalid API key: x" 0 7) "cb",
       Effect.acked] := by rfl

/-! ### Correlation and the dropped metadata field (claim C1) -/

/-- C1: the response envelope published for a successfully decoded
request carries the request's `request_id` (and `model`), but `metadata`
is *not* echoed: `main.py` passes `metadata=request.metadata` to
`GeminiResponseMessage`, whose schema declares no such field, so
pydantic drops the argument and the published envelope — fully spelled
out on the right-hand side — has no metadata at all, although `reqA`
carries `metadata={"trace": "t1"}`.  The correlation half of the claim
holds; the metadata half cannot. -/
theorem response_echoes_request_id_but_not_metadata :
    reqA.metadata = some [("trace", JsonVal.str "t1")] ∧
    (processRequest cfgA envHappy reqA 0 7 5 ⟨0, 0, 0⟩).1 =
      [Effect.respPublished
        { request_id := "123e4567-e89b-12d3-a456-426614174000",
          status := .success, content := some "hello", error := none,
          usage := some ⟨1, 2, 3⟩, timestamp := 0,
          processing_time_ms := some 7, model_used := some "m1" } "cb",
       Effect.acked] :=
  ⟨rfl, rfl⟩

/-! ### The exhausted state (claim C4) -/

/-- C4: when no credential is eligible, `_handle_no_keys_available`
publishes the terminal error response whose `error` string is exactly
"Rate limit exceeded after N retries" (N = `QUEUE_MAX_RETRIES`) and
ACKs whenever `retry_count ≥ QUEUE_MAX_RETRIES`, and otherwise requeues
with delay `retry_delays[min(retry_count, len(retry_delays) - 1)]`. -/
theorem exhausted_terminal_or_requeue (cfg : WorkerConfig) (env : DispatchEnv)
    (req : GeminiRequestMessage) (now : ℤ) (st : EnvSt) :
    (cfg.queue_max_retries ≤ req.retry_count → env.publish_ok st.pj = true →
      handle_no_keys cfg env req now st =
        ([.respPublished (mkMaxRetriesResponse req cfg.queue_max_retries now)
            req.callback_queue, .acked],
         { st with pj := st.pj + 1 }, .done) ∧
      (mkMaxRetriesResponse req cfg.queue_max_retries now).error =
        some ("Rate limit exceeded after " ++ toString cfg.queue_max_retries
          ++ " retries")) ∧
    (req.retry_count < cfg.queue_max_retries →
      handle_no_keys cfg env req now st =
        (requeue_with_delay cfg.request_queue env.delayBroker req now
          (cfg.retry_delays.getD
            (min req.retry_count (cfg.retry_delays.length - 1)) 0),
         st, .done)) := by
  constructor
  · intro h hp
    exact ⟨by simp [handle_no_keys, if_pos h, hp], rfl⟩
  · intro h
    simp [handle_no_keys, Nat.not_le.mpr h]

/-- Witness for C4: with the default configuration, a request at
`retry_count = 4` gets the literal terminal error published and ACKed,
and a fresh request (`retry_count = 0`) is delegated to the delay-60s
requeue with the state untouched. -/
theorem exhausted_terminal_or_requeue_witness :
    (handle_no_keys cfgA envHappy { reqA with retry_count := 4 } 0 ⟨0, 0, 0⟩ =
      ([.respPublished
          (mkMaxRetriesResponse { reqA with retry_count := 4 } 4 0) "cb",
        .acked], ⟨0, 0, 1⟩, .done)) ∧
    (handle_no_keys cfgA envHappy reqA 0 ⟨0, 0, 0⟩ =
      (requeue_with_delay "gemini.requests" ⟨true, true, true⟩ reqA 0 60,
       ⟨0, 0, 0⟩, .done)) :=
  ⟨((exhausted_terminal_or_requeue cfgA envHappy { reqA with retry_count := 4 }
      0 ⟨0, 0, 0⟩).1 (by decide) rfl).1,
   (exhausted_terminal_or_requeue cfgA envHappy reqA 0 ⟨0, 0, 0⟩).2 (by decide)⟩

/-! ### The delay-requeue contract (claim C6) -/

/-- C6: a successful `requeue_with_delay` declares the auxiliary queue
with `x-message-ttl = delay_seconds * 1000`, empty
`x-dead-letter-exchange` and `x-dead-letter-routing-key` equal to the
request queue, publishes there a copy of the request with
`retry_count + 1` and a refreshed timestamp, and only then ACKs the
original delivery. -/
theorem requeue_with_delay_success (q : String) (req : GeminiRequestMessage)
    (now : ℤ) (d : Nat) :
    requeue_with_delay q ⟨true, true, true⟩ req now d =
      [.delayQueueDeclared (delayQueueName q d) (d * 1000) "" q,
       .delayPublished (delayQueueName q d)
         { req with retry_count := req.retry_count + 1, timestamp := now }
         (d * 1000),
       .acked] :=
  rfl

/-! ### Requeue failure drops the delivery (claim C10) -/

/-- C10: if, on the exhausted path, declaring the delay queue or
publishing the delayed copy fails, `requeue_with_delay` catches the
exception and rejects the original delivery without requeue; the
handler then returns normally, so no response envelope is ever
published for the delivery — it is dropped, not redelivered. -/
theorem requeue_failure_drops_delivery (cfg : WorkerConfig) (env : DispatchEnv)
    (req : GeminiRequestMessage) (now elapsed : ℤ) (fuel : Nat) (st : EnvSt)
    (hk : env.keys st.gi = none)
    (hrc : req.retry_count < cfg.queue_max_retries)
    (hfail : env.delayBroker.declare_ok = false ∨ env.delayBroker.publish_ok = false) :
    ((processRequest cfg env req now elapsed (fuel + 1) st).1.getLast? =
        some (.rejected false)) ∧
      (processRequest cfg env req now elapsed (fuel + 1) st).2.2 = .done ∧
      Effect.acked ∉ (processRequest cfg env req now elapsed (fuel + 1) st).1 ∧
      ∀ r q, Effect.respPublished r q ∉
        (processRequest cfg env req now elapsed (fuel + 1) st).1 := by
  have hn : ¬ cfg.queue_max_retries ≤ req.retry_count := by omega
  rcases hfail with hf | hf
  · simp [processRequest, exceptWrap, hk, handle_no_keys, hn, requeue_with_delay, hf]
  · by_cases hdec : env.delayBroker.declare_ok
    · simp [processRequest, exceptWrap, hk, handle_no_keys, hn, requeue_with_delay, hdec, hf]
    · simp [processRequest, exceptWrap, hk, handle_no_keys, hn, requeue_with_delay, hdec]

/-- Environment for the C10 witness: no key ever available, the delayed
publish fails. -/
def envNoKeysPubFail : DispatchEnv :=
  { keys := fun _ => none, call := fun _ => .ok "x" ⟨0, 0, 0⟩,
    publish_ok := fun _ => true, delayBroker := ⟨true, false, true⟩ }

/-- Witness for C10 at a concrete delivery. -/
theorem requeue_failure_drops_delivery_witness :
    ((processRequest cfgA envNoKeysPubFail reqA 0 0 1 ⟨0, 0, 0⟩).1.getLast? =
        some (.rejected false)) ∧
      (processRequest cfgA envNoKeysPubFail reqA 0 0 1 ⟨0, 0, 0⟩).2.2 = .done ∧
      Effect.acked ∉ (processRequest cfgA envNoKeysPubFail reqA 0 0 1 ⟨0, 0, 0⟩).1 ∧
      ∀ r q, Effect.respPublished r q ∉
        (processRequest cfgA envNoKeysPubFail reqA 0 0 1 ⟨0, 0, 0⟩).1 :=
  requeue_failure_drops_delivery cfgA envNoKeysPubFail reqA 0 0 0 ⟨0, 0, 0⟩
    rfl (by decide) (Or.inr rfl)

/-! ### ACK discipline (claim C5) -/

/-- Is the effect a successful publish (of a response envelope or of
the delayed retry copy)? -/
def isPublish : Effect → Bool
  | .respPublished _ _ => true
  | .delayPublished _ _ _ => true
  | _ => false

/-- Scans a trace up to its first successful publish and reports
whether an ACK occurs strictly before it (`true` = the discipline is
violated). -/
def ackBeforePublish : List Effect → Bool
  | [] => false
  | .acked :: _ => true
  | e :: rest => if isPublish e then false else ackBeforePublish rest

theorem ackBeforePublish_append {l₁ l₂ : List Effect}
    (h1 : ackBeforePublish l₁ = false) (h2 : ackBeforePublish l₂ = false) :
    ackBeforePublish (l₁ ++ l₂) = false := by
  induction l₁ with
  | nil => simpa using h2
  | cons e l ih =>
    cases e with
    | acked => simp [ackBeforePublish] at h1
    | respPublished r q => simp [ackBeforePublish, isPublish]
    | delayPublished a b c => simp [ackBeforePublish, isPublish]
    | delayQueueDeclared a b c d =>
      simp only [List.cons_append, ackBeforePublish, isPublish] at h1 ⊢
      simp only [Bool.false_eq_true, if_false] at h1 ⊢
      exact ih h1
    | rejected b =>
      simp only [List.cons_append, ackBeforePublish, isPublish] at h1 ⊢
      simp only [Bool.false_eq_true, if_false] at h1 ⊢
      exact ih h1

theorem ackBeforePublish_handle (cfg : WorkerConfig) (env : DispatchEnv)
    (req : GeminiRequestMessage) (now : ℤ) (st : EnvSt) :
    ackBeforePublish (handle_no_keys cfg env req now st).1 = false := by
  unfold handle_no_keys requeue_with_delay
  by_cases h1 : cfg.queue_max_retries ≤ req.retry_count <;>
    by_cases h2 : env.publish_ok st.pj <;>
    by_cases h3 : env.delayBroker.declare_ok <;>
    by_cases h4 : env.delayBroker.publish_ok <;>
    by_cases h5 : env.delayBroker.ack_ok <;>
    simp [h1, h2, h3, h4, h5, ackBeforePublish, isPublish]

theorem ackBeforePublish_exceptWrap (env : DispatchEnv)
    (req : GeminiRequestMessage) (now elapsed : ℤ)
    (b : List Effect × EnvSt × DResult) (hb : ackBeforePublish b.1 = false) :
    ackBeforePublish (exceptWrap env req now elapsed b).1 = false := by
  rcases b with ⟨fx, st', r⟩
  cases r with
  | done => simpa [exceptWrap] using hb
  | outOfFuel => simpa [exceptWrap] using hb
  | raised msg =>
    by_cases hp : env.publish_ok st'.pj
    · simp only [exceptWrap, hp, if_true]
      exact ackBeforePublish_append hb (by rfl)
    · simpa [exceptWrap, hp] using hb

theorem ackBeforePublish_processRequest (cfg : WorkerConfig) (env : DispatchEnv)
    (req : GeminiRequestMessage) (now elapsed : ℤ) :
    ∀ (fuel : Nat) (st : EnvSt),
      ackBeforePublish (processRequest cfg env req now elapsed fuel st).1 = false := by
  intro fuel
  induction fuel with
  | zero => intro st; rfl
  | succ fuel ih =>
    intro st
    simp only [processRequest]
    apply ackBeforePublish_exceptWrap
    rcases hk : env.keys st.gi with _ | key
    · exact ackBeforePublish_handle ..
    · rcases hc : env.call st.ci with ⟨content, usage⟩ | msg | msg
      · by_cases hp : env.publish_ok st.pj
        · simp [hp, ackBeforePublish, isPublish]
        · simp [hp, ackBeforePublish]
      · rcases hk2 : env.keys (st.gi + 1) with _ | key2
        · exact ackBeforePublish_handle ..
        · exact ih _
      · rfl

/-- Environment with a failed first response publish and a working
second one, reaching the fallback error publish. -/
def envPubFailThenOk : DispatchEnv :=
  { keys := fun _ => some "k1", call := fun _ => .ok "hello" ⟨1, 2, 3⟩,
    publish_ok := fun n => n != 0, delayBroker := ⟨true, true, true⟩ }

/-- C5 counterexample: the first (success-response) publish for the
delivery fails, yet the delivery *is* ACKed — the generic exception
handler publishes a fallback error response and then ACKs — so "if
publishing the response envelope fails, the delivery is not ACKed (so
the broker redelivers it)" is false of the code. -/
theorem publish_failure_still_acked :
    envPubFailThenOk.publish_ok 0 = false ∧
    (processRequest cfgA envPubFailThenOk reqA 0 7 5 ⟨0, 0, 0⟩).1 =
      [Effect.respPublished (mkGenericErrorResponse reqA publishFailureMsg 0 7) "cb",
       Effect.acked] :=
  ⟨rfl, rfl⟩

theorem no_ack_handle (cfg : WorkerConfig) (env : DispatchEnv)
    (req : GeminiRequestMessage) (now : ℤ) (st : EnvSt)
    (hall : ∀ n, env.publish_ok n = false)
    (hd : env.delayBroker.publish_ok = false) :
    Effect.acked ∉ (handle_no_keys cfg env req now st).1 ∧
      ((handle_no_keys cfg env req now st).1 = [] ∨
        Effect.rejected false ∈ (handle_no_keys cfg env req now st).1) := by
  unfold handle_no_keys requeue_with_delay
  by_cases h1 : cfg.queue_max_retries ≤ req.retry_count <;>
    by_cases h3 : env.delayBroker.declare_ok <;>
    simp [h1, h3, hall, hd]

theorem no_ack_exceptWrap (env : DispatchEnv) (req : GeminiRequestMessage)
    (now elapsed : ℤ) (b : List Effect × EnvSt × DResult)
    (hall : ∀ n, env.publish_ok n = false)
    (hb1 : Effect.acked ∉ b.1)
    (hb2 : b.1 = [] ∨ Effect.rejected false ∈ b.1) :
    Effect.acked ∉ (exceptWrap env req now elapsed b).1 ∧
      ((exceptWrap env req now elapsed b).1 = [] ∨
        Effect.rejected false ∈ (exceptWrap env req now elapsed b).1) := by
  rcases b with ⟨fx, st', r⟩
  cases r with
  | done => exact ⟨hb1, hb2⟩
  | outOfFuel => exact ⟨hb1, hb2⟩
  | raised msg =>
    simp only [exceptWrap, hall st'.pj, Bool.false_eq_true, if_false]
    exact ⟨hb1, hb2⟩

theorem no_ack_processRequest (cfg : WorkerConfig) (env : DispatchEnv)
    (req : GeminiRequestMessage) (now elapsed : ℤ)
    (hall : ∀ n, env.publish_ok n = false)
    (hd : env.delayBroker.publish_ok = false) :
    ∀ (fuel : Nat) (st : EnvSt),
      Effect.acked ∉ (processRequest cfg env req now elapsed fuel st).1 ∧
        ((processRequest cfg env req now elapsed fuel st).1 = [] ∨
          Effect.rejected false ∈
            (processRequest cfg env req now elapsed fuel st).1) := by
  intro fuel
  induction fuel with
  | zero => intro st; exact ⟨by simp [processRequest], Or.inl rfl⟩
  | succ fuel ih =>
    intro st
    simp only [processRequest]
    rcases hk : env.keys st.gi with _ | key
    · have h := no_ack_handle cfg env req now
        { st with gi := st.gi + 1 } hall hd
      exact no_ack_exceptWrap env req now elapsed _ hall h.1 h.2
    · rcases hc : env.call st.ci with ⟨content, usage⟩ | msg | msg
      · simp only [hall, Bool.false_eq_true, if_false]
        exact no_ack_exceptWrap env req now elapsed _ hall (by simp) (Or.inl rfl)
      · rcases hk2 : env.keys (st.gi + 1) with _ | key2
        · have h := no_ack_handle cfg env req now
            { st with gi := st.gi + 1 + 1, ci := st.ci + 1 } hall hd
          exact no_ack_exceptWrap env req now elapsed _ hall h.1 h.2
        · have h := ih { st with gi := st.gi + 1 + 1, ci := st.ci + 1 }
          exact no_ack_exceptWrap env req now elapsed _ hall h.1 h.2
      · exact no_ack_exceptWrap env req now elapsed _ hall (by simp) (Or.inl rfl)

/-- C5 (amended): a delivery is never ACKed before some publish — of a
response envelope or of the delayed retry copy — has succeeded; and
when every publish attempt fails (response publishes and the delayed
copy alike), the delivery is never ACKed, and aside from the model's
out-of-fuel artifact (empty trace) it is rejected without requeue —
dropped, not left for redelivery.  A failed response publish does not
leave the delivery un-ACKed as claimed: the generic handler publishes a
fallback error response and then ACKs (see the counterexample). -/
theorem ack_only_after_publish (cfg : WorkerConfig) (env : DispatchEnv)
    (body : Option JsonVal) (now elapsed : ℤ) (fuel : Nat) :
    ackBeforePublish (on_message cfg env body now elapsed fuel) = false ∧
    ((∀ n, env.publish_ok n = false) → env.delayBroker.publish_ok = false →
      Effect.acked ∉ on_message cfg env body now elapsed fuel ∧
        (on_message cfg env body now elapsed fuel = [] ∨
          Effect.rejected false ∈ on_message cfg env body now elapsed fuel)) := by
  unfold on_message
  rcases hdec : body.bind (decodeRequest now) with _ | req
  · exact ⟨rfl, fun _ _ => ⟨by simp, Or.inr (by simp)⟩⟩
  · simp only [Option.elim]
    have h1 := ackBeforePublish_processRequest cfg env req now elapsed fuel ⟨0, 0, 0⟩
    rcases hpr : processRequest cfg env req now elapsed fuel ⟨0, 0, 0⟩ with ⟨fx, st', r⟩
    rw [hpr] at h1
    cases r with
    | done =>
      refine ⟨h1, fun hall hd => ?_⟩
      have h2 := no_ack_processRequest cfg env req now elapsed hall hd fuel ⟨0, 0, 0⟩
      rw [hpr] at h2
      exact h2
    | outOfFuel =>
      refine ⟨h1, fun hall hd => ?_⟩
      have h2 := no_ack_processRequest cfg env req now elapsed hall hd fuel ⟨0, 0, 0⟩
      rw [hpr] at h2
      exact h2
    | raised msg =>
      refine ⟨ackBeforePublish_append h1
        (show ackBeforePublish [Effect.rejected false] = false from rfl),
        fun hall hd => ?_⟩
      have h2 := no_ack_processRequest cfg env req now elapsed hall hd fuel ⟨0, 0, 0⟩
      rw [hpr] at h2
      refine ⟨?_, Or.inr (by simp [settle])⟩
      simp only [settle, List.mem_append, List.mem_singleton]
      rintro (hmem | hmem)
      · exact h2.1 hmem
      · exact absurd hmem (by simp)

/-- Environment in which every publish fails (response publishes and
the delayed copy alike). -/
def envAllPubFail : DispatchEnv :=
  { keys := fun _ => some "k1", call := fun _ => .ok "hello" ⟨1, 2, 3⟩,
    publish_ok := fun _ => false, delayBroker := ⟨true, false, true⟩ }

/-- A decodable body for the C5 witness. -/
def bodyA : Option JsonVal :=
  some (.obj
    [("request_id", .str "123e4567-e89b-12d3-a456-426614174000"),
     ("prompt", .str "hi"), ("callback_queue", .str "cb")])

/-- Witness for C5 (amended) at a concrete delivery whose publishes all
fail: no ACK before a publish, no ACK at all, and the delivery ends
rejected without requeue. -/
theorem ack_only_after_publish_witness :
    ackBeforePublish (on_message cfgA envAllPubFail bodyA 0 7 5) = false ∧
      Effect.acked ∉ on_message cfgA envAllPubFail bodyA 0 7 5 ∧
      (on_message cfgA envAllPubFail bodyA 0 7 5 = [] ∨
        Effect.rejected false ∈ on_message cfgA envAllPubFail bodyA 0 7 5) := by
  have h := ack_only_after_publish cfgA envAllPubFail bodyA 0 7 5
  exact ⟨h.1, (h.2 (fun n => rfl) rfl).1, (h.2 (fun n => rfl) rfl).2⟩

/-! ### Unknown request fields (claim C8) -/

theorem lookup_append_single {β : Type} (fs : List (String × β)) (k name : String)
    (v : β) (h : ¬ name = k) :
    List.lookup name (fs ++ [(k, v)]) = List.lookup name fs := by
  have hbk : (name == k) = false := beq_eq_false_iff_ne.mpr h
  induction fs with
  | nil => simp [List.lookup, hbk]
  | cons p rest ih =>
    rcases p with ⟨a, b⟩
    by_cases ha : name = a
    · simp [List.lookup, ha]
    · have hba : (name == a) = false := beq_eq_false_iff_ne.mpr ha
      simp [List.lookup, hba, ih]

/-- C8 counterexample: a body that carries an undeclared field
`totally_unknown_field` decodes *successfully* — pydantic's default
`extra` behaviour ignores unknown fields, and neither request schema
nor consumer configures `extra="forbid"` — refuting "decoding fails
whenever the JSON object contains a field not declared in the request
schema". -/
theorem unknown_field_accepted :
    decodeRequest 0 (.obj
      [("request_id", .str "123e4567-e89b-12d3-a456-426614174000"),
       ("prompt", .str "hi"),
       ("callback_queue", .str "cb"),
       ("totally_unknown_field", .str "surprise")]) =
    some { request_id := "123e4567-e89b-12d3-a456-426614174000", prompt := "hi",
           model := "gemini-2.5-flash", parameters := GenerationParameters.defaults,
           callback_queue := "cb", timestamp := 0, retry_count := 0,
           metadata := none, system_instruction := none } :=
  rfl

/-- C8 (amended): unknown fields on the request envelope are *ignored*,
not rejected: appending an undeclared field to a body leaves the decode
result unchanged.  A delivery is rejected without requeue exactly when
JSON parsing or declared-field validation fails. -/
theorem unknown_request_fields_ignored (now : ℤ) (fs : List (String × JsonVal))
    (k : String) (v : JsonVal) (hk : k ∉ requestFieldNames) :
    decodeRequest now (.obj (fs ++ [(k, v)])) = decodeRequest now (.obj fs) ∧
    ∀ (cfg : WorkerConfig) (env : DispatchEnv) (body : Option JsonVal)
      (elapsed : ℤ) (fuel : Nat),
      body.bind (decodeRequest now) = none →
      on_message cfg env body now elapsed fuel = [.rejected false] := by
  constructor
  · have hlk : ∀ name, name ∈ requestFieldNames →
        List.lookup name (fs ++ [(k, v)]) = List.lookup name fs := by
      intro name hn
      refine lookup_append_single fs k name v ?_
      intro he
      exact hk (he ▸ hn)
    simp only [decodeRequest, decodeRequestFields]
    rw [hlk "request_id" (by simp [requestFieldNames]),
        hlk "prompt" (by simp [requestFieldNames]),
        hlk "model" (by simp [requestFieldNames]),
        hlk "parameters" (by simp [requestFieldNames]),
        hlk "callback_queue" (by simp [requestFieldNames]),
        hlk "timestamp" (by simp [requestFieldNames]),
        hlk "retry_count" (by simp [requestFieldNames]),
        hlk "metadata" (by simp [requestFieldNames]),
        hlk "system_instruction" (by simp [requestFieldNames])]
  · intro cfg env body elapsed fuel hnone
    simp [on_message, hnone]

/-- Witness for C8 (amended): a concrete minimal body with and without
an appended unknown field decodes identically, and an unparsable body
is rejected without requeue. -/
theorem unknown_request_fields_ignored_witness :
    decodeRequest 0 (.obj
        ([("request_id", .str "123e4567-e89b-12d3-a456-426614174000"),
          ("prompt", .str "hi")] ++ [("zzz", .null)])) =
      decodeRequest 0 (.obj
        [("request_id", .str "123e4567-e89b-12d3-a456-426614174000"),
         ("prompt", .str "hi")]) ∧
    on_message cfgA envHappy (some (.str "not-an-object")) 0 0 1 =
      [.rejected false] := by
  have h := unknown_request_fields_ignored 0
    [("request_id", .str "123e4567-e89b-12d3-a456-426614174000"),
     ("prompt", .str "hi")] "zzz" .null (by decide)
  exact ⟨h.1, h.2 cfgA envHappy (some (.str "not-an-object")) 0 1 rfl⟩

end GeminiClient
